import Mathlib

/-!
Verification of the analysis pipeline in `scripts/generate_plots.py`
(assignment3-mst).

The script loads `results/performance_data.csv` into a pandas DataFrame,
renders two figures, and prints a statistical summary.  We model the loaded
table as a `List Row` of typed rows; numeric cell values are embedded as
exact rationals (`Rat`).  Results of pandas floating-point operations that
can be non-finite (division, mean of an empty column) land in `FloatVal`,
which distinguishes finite values from the IEEE `inf`/`-inf`/`nan` that
pandas produces silently.
-/

namespace MSTPlots

/-- One data row of `results/performance_data.csv`, with the eight columns
the script reads: `Vertices, Graph_Type, Prim_Time_ms, Kruskal_Time_ms,
Prim_Operations, Kruskal_Operations, Prim_Cost, Kruskal_Cost`. -/
structure Row where
  vertices : Nat
  graph_type : String
  prim_time_ms : Rat
  kruskal_time_ms : Rat
  prim_operations : Rat
  kruskal_operations : Rat
  prim_cost : Rat
  kruskal_cost : Rat
deriving DecidableEq, Repr

/-- A pandas float64 result: either a finite value (kept exact as a `Rat`)
or one of the non-finite IEEE values pandas produces without raising. -/
inductive FloatVal where
  | val (q : Rat)
  | inf
  | negInf
  | nan
deriving DecidableEq, Repr

/-- IEEE-754 division as pandas performs it elementwise on float64 Series:
a nonzero value divided by zero gives a signed infinity, `0/0` gives NaN;
no error is raised and no marker is attached. -/
def pandasDiv (a b : Rat) : FloatVal :=
  if b ≠ 0 then .val (a / b)
  else if 0 < a then .inf
  else if a < 0 then .negInf
  else .nan

/-- `Series.mean()` as pandas computes it: the arithmetic mean of the
values, and NaN (not an exception) on an empty Series. -/
def pandasMean (l : List Rat) : FloatVal :=
  if l.isEmpty then .nan else .val (l.sum / (l.length : Rat))

/-- Line 54: `performance_ratio = df['Prim_Time_ms'] / df['Kruskal_Time_ms']`,
an elementwise float division aligned with the input rows. -/
def performance_ratio (df : List Row) : List FloatVal :=
  df.map fun r => pandasDiv r.prim_time_ms r.kruskal_time_ms

/-- `Series.unique()` order: first appearance of each distinct value. -/
def uniqueOrder : List String → List String
  | [] => []
  | x :: xs => x :: (uniqueOrder xs).filter fun y => y != x

/-- Line 36: `graph_types = df['Graph_Type'].unique()`. -/
def graph_types (df : List Row) : List String :=
  uniqueOrder (df.map (·.graph_type))

/-- The row selection `df[df['Graph_Type'] == gt]`. -/
def rowsOfType (df : List Row) (gt : String) : List Row :=
  df.filter fun r => decide (r.graph_type = gt)

/-- Derived per-category aggregate (the spec's GroupSummary): label plus the
mean Prim and Kruskal times over that label's rows. -/
structure GroupSummary where
  graph_type : String
  mean_a_time_ms : FloatVal
  mean_b_time_ms : FloatVal
deriving DecidableEq, Repr

/-- Lines 36-38: the per-category mean times, one entry per element of
`graph_types df`, in that order; each mean is
`df[df['Graph_Type'] == gt]['..._Time_ms'].mean()`. -/
def groupSummaries (df : List Row) : List GroupSummary :=
  (graph_types df).map fun gt =>
    ⟨gt, pandasMean ((rowsOfType df gt).map (·.prim_time_ms)),
         pandasMean ((rowsOfType df gt).map (·.kruskal_time_ms))⟩

/-- Lines 94-98: `len(df[df['Graph_Type'] == gt])`, the per-label row count
printed next to each vertex-count threshold. -/
def countType (df : List Row) (gt : String) : Nat :=
  (rowsOfType df gt).length

/-- Line 101: `df['Prim_Time_ms'].mean()`. -/
def avgPrimTime (df : List Row) : FloatVal :=
  pandasMean (df.map (·.prim_time_ms))

/-- Line 102: `df['Kruskal_Time_ms'].mean()`. -/
def avgKruskalTime (df : List Row) : FloatVal :=
  pandasMean (df.map (·.kruskal_time_ms))

/-- Line 103: `df['Prim_Operations'].mean()`. -/
def avgPrimOps (df : List Row) : FloatVal :=
  pandasMean (df.map (·.prim_operations))

/-- Line 104: `df['Kruskal_Operations'].mean()`. -/
def avgKruskalOps (df : List Row) : FloatVal :=
  pandasMean (df.map (·.kruskal_operations))

/-- Line 107: `prim_faster_count = len(df[df['Prim_Time_ms'] < df['Kruskal_Time_ms']])`. -/
def prim_faster_count (df : List Row) : Nat :=
  (df.filter fun r => decide (r.prim_time_ms < r.kruskal_time_ms)).length

/-- Line 108: `kruskal_faster_count = len(df[df['Kruskal_Time_ms'] < df['Prim_Time_ms']])`. -/
def kruskal_faster_count (df : List Row) : Nat :=
  (df.filter fun r => decide (r.kruskal_time_ms < r.prim_time_ms)).length

/-- Rows where the two measured times are equal: counted by neither of the
two head-to-head filters above. -/
def tieCount (df : List Row) : Nat :=
  (df.filter fun r => decide (r.prim_time_ms = r.kruskal_time_ms)).length

/-- Line 112: `cost_matches = len(df[df['Prim_Cost'] == df['Kruskal_Cost']])`,
an exact elementwise equality comparison of the two cost columns. -/
def cost_matches (df : List Row) : Nat :=
  (df.filter fun r => decide (r.prim_cost = r.kruskal_cost)).length

/-- Line 114: the correctness flag printed as a check mark,
`cost_matches == len(df)`. -/
def costFlag (df : List Row) : Bool :=
  cost_matches df == df.length

/-- C1: the correctness cross-check counts rows by exact equality of the two
loaded cost values, the count is at most the total row count, and the printed
correctness flag is true exactly when the count equals the total. -/
theorem cost_check_exact_and_flag_iff (df : List Row) :
    cost_matches df = (df.filter fun r => decide (r.prim_cost = r.kruskal_cost)).length ∧
    cost_matches df ≤ df.length ∧
    (costFlag df = true ↔ cost_matches df = df.length) := by
  refine ⟨rfl, List.length_filter_le _ _, ?_⟩
  simp [costFlag]

/-- C6: computing the four global averages on the empty table yields the
defined pandas value NaN for each, not an error. -/
theorem empty_table_averages_defined :
    avgPrimTime [] = FloatVal.nan ∧ avgKruskalTime [] = FloatVal.nan ∧
    avgPrimOps [] = FloatVal.nan ∧ avgKruskalOps [] = FloatVal.nan := by
  refine ⟨rfl, rfl, rfl, rfl⟩

/-- C2: the two strict head-to-head filters and the tie rows partition the
table, so their three counts sum to the total row count. -/
theorem faster_counts_partition (df : List Row) :
    prim_faster_count df + kruskal_faster_count df + tieCount df = df.length := by
  induction df with
  | nil => rfl
  | cons r t ih =>
    simp only [prim_faster_count, kruskal_faster_count, tieCount, List.filter_cons,
      List.length_cons] at ih ⊢
    rcases lt_trichotomy r.prim_time_ms r.kruskal_time_ms with h | h | h
    · have h1 : ¬ r.kruskal_time_ms < r.prim_time_ms := not_lt.mpr h.le
      have h2 : r.prim_time_ms ≠ r.kruskal_time_ms := ne_of_lt h
      simp [h, h1, h2]
      omega
    · have h1 : ¬ r.prim_time_ms < r.kruskal_time_ms := by rw [h]; exact lt_irrefl _
      have h2 : ¬ r.kruskal_time_ms < r.prim_time_ms := by rw [h]; exact lt_irrefl _
      simp [h, h1, h2]
      omega
    · have h1 : ¬ r.prim_time_ms < r.kruskal_time_ms := not_lt.mpr h.le
      have h2 : r.prim_time_ms ≠ r.kruskal_time_ms := (ne_of_lt h).symm
      simp [h, h1, h2]
      omega

/-- Replace a row's `Vertices` value, keeping every other column. -/
def setVertices (n : Nat) (r : Row) : Row :=
  ⟨n, r.graph_type, r.prim_time_ms, r.kruskal_time_ms,
   r.prim_operations, r.kruskal_operations, r.prim_cost, r.kruskal_cost⟩

/-- C4: each printed per-threshold count is a pure label filter: it equals
the number of rows whose `Graph_Type` is exactly that label, and rewriting
every row's `Vertices` value arbitrarily leaves all four counts unchanged. -/
theorem threshold_counts_are_label_counts (df : List Row) (f : Row → Nat) :
    (∀ gt ∈ ["Small", "Medium", "Large", "Extra"],
      countType df gt = (df.filter fun r => decide (r.graph_type = gt)).length ∧
      countType (df.map fun r => setVertices (f r) r) gt = countType df gt) := by
  intro gt _
  refine ⟨rfl, ?_⟩
  simp only [countType, rowsOfType, ← List.countP_eq_length_filter]
  rw [List.countP_map]
  rfl

/-- A well-formed sample row with label "Small". -/
def sampleRow : Row := ⟨10, "Small", 1, 2, 100, 80, 50, 50⟩

/-- Witness for C4 at a concrete one-row table, the label "Small" and a
constant vertices rewrite. -/
theorem threshold_counts_are_label_counts_witness :
    countType [sampleRow] "Small" =
      ([sampleRow].filter fun r => decide (r.graph_type = "Small")).length ∧
    countType ([sampleRow].map fun r => setVertices ((fun _ => 5000) r) r) "Small" =
      countType [sampleRow] "Small" :=
  threshold_counts_are_label_counts [sampleRow] (fun _ => 5000) "Small" (by simp)

/-- How many of the four label buckets a single row falls into. -/
def bucketHits (r : Row) : Nat :=
  (if r.graph_type = "Small" then 1 else 0) + (if r.graph_type = "Medium" then 1 else 0) +
  (if r.graph_type = "Large" then 1 else 0) + (if r.graph_type = "Extra" then 1 else 0)

theorem countType_eq_sum (df : List Row) (gt : String) :
    countType df gt = (df.map fun r => if r.graph_type = gt then 1 else 0).sum := by
  induction df with
  | nil => rfl
  | cons r t ih =>
    simp only [countType, rowsOfType, List.filter_cons, List.map_cons, List.sum_cons] at ih ⊢
    by_cases h : r.graph_type = gt
    · simp [h, ih]
      omega
    · simp [h, ih]

theorem sum_map_le_length (f : Row → Nat) (hf : ∀ r, f r ≤ 1) (l : List Row) :
    (l.map f).sum ≤ l.length ∧ ((l.map f).sum = l.length ↔ ∀ r ∈ l, f r = 1) := by
  induction l with
  | nil => simp
  | cons a t ih =>
    obtain ⟨h1, h2⟩ := ih
    have ha := hf a
    simp only [List.map_cons, List.sum_cons, List.length_cons, List.forall_mem_cons]
    refine ⟨by omega, ?_, ?_⟩
    · intro h
      have hsplit : f a = 1 ∧ (t.map f).sum = t.length := by omega
      exact ⟨hsplit.1, h2.mp hsplit.2⟩
    · rintro ⟨hfa, hall⟩
      have := h2.mpr hall
      omega

theorem bucketHits_le_one (r : Row) : bucketHits r ≤ 1 := by
  unfold bucketHits
  by_cases h1 : r.graph_type = "Small"
  · simp [h1]
  by_cases h2 : r.graph_type = "Medium"
  · simp [h2]
  by_cases h3 : r.graph_type = "Large"
  · simp [h3]
  by_cases h4 : r.graph_type = "Extra"
  · simp [h4]
  simp [h1, h2, h3, h4]

theorem bucketHits_eq_one_iff (r : Row) :
    bucketHits r = 1 ↔ (r.graph_type = "Small" ∨ r.graph_type = "Medium" ∨
      r.graph_type = "Large" ∨ r.graph_type = "Extra") := by
  unfold bucketHits
  by_cases h1 : r.graph_type = "Small"
  · simp [h1]
  by_cases h2 : r.graph_type = "Medium"
  · simp [h2]
  by_cases h3 : r.graph_type = "Large"
  · simp [h3]
  by_cases h4 : r.graph_type = "Extra"
  · simp [h4]
  simp [h1, h2, h3, h4]

theorem bucket_counts_sum (df : List Row) :
    countType df "Small" + countType df "Medium" + countType df "Large" +
      countType df "Extra" = (df.map bucketHits).sum := by
  induction df with
  | nil => rfl
  | cons r t ih =>
    rw [countType_eq_sum, countType_eq_sum, countType_eq_sum, countType_eq_sum] at ih ⊢
    simp only [List.map_cons, List.sum_cons, bucketHits] at ih ⊢
    omega

/-- C10: the sum of the four printed label-bucket counts is at most the
total row count, with equality exactly when every row carries one of the
four labels; a row with any other label lies in none of the four filtered
selections. -/
theorem bucket_counts_bound (df : List Row) :
    countType df "Small" + countType df "Medium" + countType df "Large" +
      countType df "Extra" ≤ df.length ∧
    (countType df "Small" + countType df "Medium" + countType df "Large" +
      countType df "Extra" = df.length ↔
      ∀ r ∈ df, r.graph_type = "Small" ∨ r.graph_type = "Medium" ∨
        r.graph_type = "Large" ∨ r.graph_type = "Extra") ∧
    (∀ r ∈ df, ¬ (r.graph_type = "Small" ∨ r.graph_type = "Medium" ∨
        r.graph_type = "Large" ∨ r.graph_type = "Extra") →
      r ∉ rowsOfType df "Small" ∧ r ∉ rowsOfType df "Medium" ∧
      r ∉ rowsOfType df "Large" ∧ r ∉ rowsOfType df "Extra") := by
  obtain ⟨hle, hiff⟩ := sum_map_le_length bucketHits bucketHits_le_one df
  rw [bucket_counts_sum]
  refine ⟨hle, ?_, ?_⟩
  · rw [hiff]
    constructor
    · intro h r hr
      exact (bucketHits_eq_one_iff r).mp (h r hr)
    · intro h r hr
      exact (bucketHits_eq_one_iff r).mpr (h r hr)
  · intro r _ hno
    push_neg at hno
    obtain ⟨n1, n2, n3, n4⟩ := hno
    refine ⟨?_, ?_, ?_, ?_⟩ <;>
      · intro hmem
        rw [rowsOfType, List.mem_filter] at hmem
        simp only [decide_eq_true_eq] at hmem
        first
        | exact n1 hmem.2
        | exact n2 hmem.2
        | exact n3 hmem.2
        | exact n4 hmem.2

theorem mem_uniqueOrder {x : String} : ∀ {l : List String}, x ∈ uniqueOrder l ↔ x ∈ l := by
  intro l
  induction l with
  | nil => simp [uniqueOrder]
  | cons a t ih =>
    simp only [uniqueOrder, List.mem_cons, List.mem_filter]
    constructor
    · rintro (rfl | ⟨hx, _⟩)
      · exact .inl rfl
      · exact .inr (ih.mp hx)
    · rintro (rfl | hx)
      · exact .inl rfl
      · by_cases hax : x = a
        · exact .inl hax
        · exact .inr ⟨ih.mpr hx, by simpa using hax⟩

theorem uniqueOrder_pairwise (l : List String) :
    (uniqueOrder l).Pairwise fun a b => l.indexOf a < l.indexOf b := by
  induction l with
  | nil => simp [uniqueOrder]
  | cons x xs ih =>
    simp only [uniqueOrder]
    refine List.Pairwise.cons ?_ ?_
    · intro b hb
      rw [List.mem_filter] at hb
      have hbx : b ≠ x := by simpa using hb.2
      rw [List.indexOf_cons_self, List.indexOf_cons_ne _ (fun h => hbx h.symm)]
      exact Nat.succ_pos _
    · refine (ih.filter fun y => y != x).imp_of_mem ?_
      intro a b ha hb hab
      rw [List.mem_filter] at ha hb
      have hax : a ≠ x := by simpa using ha.2
      have hbx : b ≠ x := by simpa using hb.2
      rw [List.indexOf_cons_ne _ (fun h => hax h.symm),
        List.indexOf_cons_ne _ (fun h => hbx h.symm)]
      omega

/-- C5: the GroupSummary sequence has one entry per distinct `Graph_Type`
in first-appearance order (its labels are pairwise sorted by the index of
their first occurrence), and each entry's two means are the arithmetic mean
of exactly the rows carrying that label. -/
theorem group_summaries_spec (df : List Row) :
    ((groupSummaries df).map (·.graph_type) = graph_types df) ∧
    ((groupSummaries df).Pairwise fun s t =>
      (df.map (·.graph_type)).indexOf s.graph_type <
        (df.map (·.graph_type)).indexOf t.graph_type) ∧
    (∀ s ∈ groupSummaries df,
      s.mean_a_time_ms = FloatVal.val
        (((rowsOfType df s.graph_type).map (·.prim_time_ms)).sum /
          ((rowsOfType df s.graph_type).length : Rat)) ∧
      s.mean_b_time_ms = FloatVal.val
        (((rowsOfType df s.graph_type).map (·.kruskal_time_ms)).sum /
          ((rowsOfType df s.graph_type).length : Rat))) := by
  refine ⟨?_, ?_, ?_⟩
  · rw [groupSummaries, List.map_map]
    exact List.map_id _
  · rw [groupSummaries, List.pairwise_map]
    exact uniqueOrder_pairwise (df.map (·.graph_type))
  · rintro s hs
    rw [groupSummaries, List.mem_map] at hs
    obtain ⟨gt, hgt, rfl⟩ := hs
    have hne : rowsOfType df gt ≠ [] := by
      rw [graph_types, mem_uniqueOrder, List.mem_map] at hgt
      obtain ⟨r, hr, rfl⟩ := hgt
      have hmem : r ∈ rowsOfType df r.graph_type := by
        rw [rowsOfType, List.mem_filter]
        exact ⟨hr, by simp⟩
      exact List.ne_nil_of_mem hmem
    constructor <;>
      · show pandasMean _ = _
        rw [pandasMean, if_neg (by simpa using hne)]
        simp

/-- A per-row ratio as §4.2 of the spec describes it: either a computed
value or an explicit "ratio undefined" marker. -/
inductive RatioVal where
  | defined (q : Rat)
  | undefined
deriving DecidableEq, Repr

/-- Modelled from the spec: the per-row performance-ratio sequence that
carries an explicit undefined marker for rows whose `Kruskal_Time_ms` is
zero, instead of a computed value. -/
def spec_performance_ratio (df : List Row) : List RatioVal :=
  df.map fun r =>
    if r.kruskal_time_ms = 0 then .undefined
    else .defined (r.prim_time_ms / r.kruskal_time_ms)

/-- A row whose `Kruskal_Time_ms` is zero while `Prim_Time_ms` is 1. -/
def zeroDenomRow : Row := ⟨10, "Small", 1, 0, 100, 80, 50, 50⟩

/-- C3 counterexample: on a table whose single row has `Kruskal_Time_ms = 0`
the code's ratio column holds the silently propagated IEEE infinity, while
the spec's sequence would hold the explicit undefined marker; an infinity is
not a labelled marker and is not any finite computed value. -/
theorem performance_ratio_zero_denom_counterexample :
    performance_ratio [zeroDenomRow] = [FloatVal.inf] ∧
    spec_performance_ratio [zeroDenomRow] = [RatioVal.undefined] ∧
    (∀ q : Rat, FloatVal.inf ≠ FloatVal.val q) := by
  refine ⟨by decide, by decide, fun q h => by cases h⟩

/-- C3 amended: the ratio sequence is elementwise float division aligned
with the rows; it equals `a/b` whenever `b ≠ 0`, and for `b = 0` the entry
is a silently propagated signed infinity or NaN, never an explicit
undefined marker. -/
theorem performance_ratio_amended (df : List Row) :
    (performance_ratio df).length = df.length ∧
    performance_ratio df = df.map (fun r => pandasDiv r.prim_time_ms r.kruskal_time_ms) ∧
    ∀ r ∈ df,
      (r.kruskal_time_ms ≠ 0 →
        pandasDiv r.prim_time_ms r.kruskal_time_ms =
          FloatVal.val (r.prim_time_ms / r.kruskal_time_ms)) ∧
      (r.kruskal_time_ms = 0 → 0 < r.prim_time_ms →
        pandasDiv r.prim_time_ms r.kruskal_time_ms = FloatVal.inf) ∧
      (r.kruskal_time_ms = 0 → r.prim_time_ms < 0 →
        pandasDiv r.prim_time_ms r.kruskal_time_ms = FloatVal.negInf) ∧
      (r.kruskal_time_ms = 0 → r.prim_time_ms = 0 →
        pandasDiv r.prim_time_ms r.kruskal_time_ms = FloatVal.nan) := by
  refine ⟨by simp [performance_ratio], rfl, ?_⟩
  intro r _
  refine ⟨fun hb => by simp [pandasDiv, hb], fun hb ha => ?_, fun hb ha => ?_, fun hb ha => ?_⟩
  · simp [pandasDiv, hb, ha]
  · have : ¬ 0 < r.prim_time_ms := not_lt.mpr ha.le
    simp [pandasDiv, hb, ha, this]
  · simp [pandasDiv, hb, ha]

/-- One CSV cell as pandas sees it after tokenising: numeric content or
arbitrary other text. -/
inductive Cell where
  | num (q : Rat)
  | str (s : String)
deriving DecidableEq, Repr

/-- A pandas column dtype as inferred by `pd.read_csv`. -/
inductive Dtype where
  | float64
  | object
deriving DecidableEq, Repr

/-- The spec's load-error taxonomy (§7): a missing source, or a malformed
row identified by row index and column name. -/
inductive LoadError where
  | sourceNotFound
  | malformedRow (rowIdx : Nat) (column : String)
deriving DecidableEq, Repr

def Cell.isNum : Cell → Bool
  | .num _ => true
  | .str _ => false

/-- pandas dtype inference for one column: entirely numeric content gives a
numeric dtype, any other content gives `object`. -/
def inferDtype (cells : List Cell) : Dtype :=
  if cells.all Cell.isNum then .float64 else .object

/-- A loaded DataFrame: header, data rows, and per-column inferred dtypes. -/
structure Frame where
  header : List String
  rows : List (List Cell)
  dtypes : List Dtype
deriving DecidableEq, Repr

/-- Column `j` of the row data. -/
def column (rows : List (List Cell)) (j : Nat) : List Cell :=
  rows.map fun r => r.getD j (.str "")

/-- Line 11: `df = pd.read_csv('results/performance_data.csv')`.  pandas
infers each column's dtype from its contents: a column that is entirely
numeric becomes a numeric dtype, any other column becomes `object` with its
raw values preserved.  No per-cell type validation is performed against a
declared schema, so loading never aborts because of non-numeric content in
an otherwise numeric column. -/
def read_csv (header : List String) (rows : List (List Cell)) : Except LoadError Frame :=
  .ok ⟨header, rows, (List.range header.length).map fun j => inferDtype (column rows j)⟩

/-- The eight column names of `results/performance_data.csv`. -/
def csvHeader : List String :=
  ["Vertices", "Graph_Type", "Prim_Time_ms", "Kruskal_Time_ms",
   "Prim_Operations", "Kruskal_Operations", "Prim_Cost", "Kruskal_Cost"]

/-- A single data row with the non-numeric text "abc" in the numeric column
`Prim_Time_ms`. -/
def malformedRows : List (List Cell) :=
  [[.num 10, .str "Small", .str "abc", .num 2, .num 100, .num 80, .num 50, .num 50]]

/-- C7 counterexample: loading a table with "abc" in the numeric column
`Prim_Time_ms` succeeds: the result is `.ok`, the offending column is
silently loaded with `object` dtype, and no `MalformedRowError` (indeed no
error at all) is produced. -/
theorem read_csv_accepts_malformed :
    read_csv csvHeader malformedRows =
      .ok ⟨csvHeader, malformedRows,
        [.float64, .object, .object, .float64, .float64, .float64, .float64, .float64]⟩ ∧
    ∀ e, read_csv csvHeader malformedRows ≠ .error e := by
  refine ⟨rfl, fun e h => by simp [read_csv] at h⟩

/-- C7 amended: loading never rejects cell content: for every header and
row set, `read_csv` returns `.ok` with the rows preserved verbatim and the
dtypes inferred per column; a column containing any non-numeric cell is
silently given `object` dtype; no error value is ever returned. -/
theorem read_csv_never_rejects (header : List String) (rows : List (List Cell)) :
    (∃ f : Frame, read_csv header rows = .ok f ∧ f.rows = rows ∧
      f.dtypes = (List.range header.length).map fun j => inferDtype (column rows j)) ∧
    (∀ j : Nat, ∀ s : String, Cell.str s ∈ column rows j →
      inferDtype (column rows j) = Dtype.object) ∧
    ∀ e, read_csv header rows ≠ .error e := by
  refine ⟨⟨_, rfl, rfl, rfl⟩, ?_, fun e h => by simp [read_csv] at h⟩
  intro j s hs
  rw [inferDtype, if_neg]
  intro hall
  have := List.all_eq_true.mp hall _ hs
  simp [Cell.isNum] at this

/-- The five printed summary sections of lines 93-114: total row count, the
four per-threshold label counts, the four global averages, the two
head-to-head counts, and the correctness line. -/
structure Report where
  total : Nat
  smallCount : Nat
  mediumCount : Nat
  largeCount : Nat
  extraCount : Nat
  avgATime : FloatVal
  avgBTime : FloatVal
  avgAOps : FloatVal
  avgBOps : FloatVal
  aFaster : Nat
  bFaster : Nat
  costMatches : Nat
  costsAllMatch : Bool
deriving DecidableEq, Repr

/-- The content of the statistical summary (lines 93-114) as a pure
function of the loaded table. -/
def buildReport (df : List Row) : Report :=
  ⟨df.length, countType df "Small", countType df "Medium", countType df "Large",
   countType df "Extra", avgPrimTime df, avgKruskalTime df, avgPrimOps df,
   avgKruskalOps df, prim_faster_count df, kruskal_faster_count df,
   cost_matches df, costFlag df⟩

/-- The script's control flow after loading: figure 1 is written
(`plt.savefig`, line 63), then figure 2 (line 93), then the summary is
printed (lines 93-114).  There is no exception handling, so a failing
`savefig` terminates the script and the summary is printed only when both
image writes succeed. -/
def runScript (df : List Row) (fig1Ok fig2Ok : Bool) : Option Report :=
  if fig1Ok then
    if fig2Ok then some (buildReport df) else none
  else none

/-- C8 counterexample: with one row loaded and the first image write
failing, the script terminates before printing: no report is emitted, in
particular not the report of the loaded table. -/
theorem render_failure_suppresses_report :
    runScript [sampleRow] false true = none ∧
    runScript [sampleRow] false true ≠ some (buildReport [sampleRow]) := by
  exact ⟨rfl, by simp [runScript]⟩

/-- C8 amended: an image-write failure aborts the script before any summary
line is printed: the report is emitted if and only if both `savefig` calls
succeed, and when emitted it is exactly the pure report of the loaded
table. -/
theorem report_requires_render_success (df : List Row) (fig1Ok fig2Ok : Bool) :
    (runScript df fig1Ok fig2Ok = some (buildReport df) ↔ fig1Ok = true ∧ fig2Ok = true) ∧
    (runScript df fig1Ok fig2Ok = none ↔ fig1Ok = false ∨ fig2Ok = false) := by
  cases fig1Ok <;> cases fig2Ok <;> simp [runScript]

/-- C9: the report is deterministic: two runs over the same loaded table,
with no mutation in between, produce identical contents for all five
summary sections (and identical full-script results when rendering
succeeds); nothing random enters the computation. -/
theorem report_deterministic (df₁ df₂ : List Row) (h : df₁ = df₂) :
    buildReport df₁ = buildReport df₂ ∧
    runScript df₁ true true = runScript df₂ true true := by
  subst h
  exact ⟨rfl, rfl⟩

/-- Witness for C9 at a concrete one-row table. -/
theorem report_deterministic_witness :
    buildReport [sampleRow] = buildReport [sampleRow] ∧
    runScript [sampleRow] true true = runScript [sampleRow] true true :=
  report_deterministic [sampleRow] [sampleRow] rfl

end MSTPlots
